import Mathlib

/-! cmdmailer: capture sink, termination classification and report composition.

A shallow embedding of `main.go`.  Go strings and byte slices are lists of
bytes; the shared `bytes.Buffer` that both `bufferCSSWriter` values point to
is threaded explicitly through every write.
-/

namespace Cmdmailer

/-! ## Bytes and strings -/

/-- One byte of a Go `string` or `[]byte`. -/
abbrev Byte := UInt8

/-- The bytes of a string literal of the source (Go strings are UTF-8 byte sequences). -/
def str (s : String) : List Byte := s.toUTF8.data.toList

/-- What the replacer behind `html.EscapeString` substitutes for one byte:
`&`, `'`, `<`, `>` and `"` are replaced, every other byte is kept. -/
def escapeByte (c : Byte) : List Byte :=
  if c = 38 then str "&amp;"
  else if c = 39 then str "&#39;"
  else if c = 60 then str "&lt;"
  else if c = 62 then str "&gt;"
  else if c = 34 then str "&#34;"
  else [c]

/-- Go `html.EscapeString`: a byte-wise replacer over the five special characters. -/
def EscapeString (s : List Byte) : List Byte := s.flatMap escapeByte

/-! ## The capture sink (`main.go` lines 22-35) -/

/-- The `bufferCSSWriter` struct.  Its `buffer *bytes.Buffer` field is a pointer to
the buffer shared by both writers; the embedding passes that buffer to `Write`. -/
structure bufferCSSWriter where
  startTag : List Byte
  endTag : List Byte

/-- The outcome of one `Write` call: the shared buffer afterwards and the
returned pair `(n, err)`; `err = none` is Go's `nil`. -/
structure WriteResult where
  buffer : List Byte
  n : Nat
  err : Option String

/-- The method `bufferCSSWriter.Write`.  Inside the guard the named results are
assigned from `bytes.Buffer.Write` (which returns the number of bytes written and
a nil error); the final `return len(p), nil` overwrites them. -/
def bufferCSSWriter.Write (b : bufferCSSWriter) (buffer : List Byte) (p : List Byte) :
    WriteResult :=
  let inner : List Byte × Nat × Option String :=
    if buffer.length < 1000000 then
      let buf1 := buffer ++ b.startTag
      let escaped := EscapeString p
      let buf2 := buf1 ++ escaped
      (buf2 ++ b.endTag, escaped.length, none)
    else
      (buffer, 0, none)
  { buffer := inner.1, n := p.length, err := none }

/-- The two standard streams of the child process. -/
inductive Stream where
  | stdout
  | stderr
  deriving DecidableEq, Repr

/-- The writer installed on `cmd.Stdout` (line 140). -/
def stdoutWriter : bufferCSSWriter :=
  { startTag := str "<span class=\"stdout\">", endTag := str "</span>" }

/-- The writer installed on `cmd.Stderr` (line 141). -/
def stderrWriter : bufferCSSWriter :=
  { startTag := str "<span class=\"stderr\">", endTag := str "</span>" }

/-- The writer a stream's bytes go through. -/
def Stream.writer : Stream → bufferCSSWriter
  | .stdout => stdoutWriter
  | .stderr => stderrWriter

/-- One write of the run: the stream it arrives on and the chunk `p`. -/
abbrev Chunk := Stream × List Byte

/-- The buffer after one chunk is written through its stream's writer. -/
def writeChunk (buffer : List Byte) (w : Chunk) : List Byte :=
  (w.1.writer.Write buffer w.2).buffer

/-- The shared buffer after a sequence of writes, starting from `buffer`. -/
def captureFrom (buffer : List Byte) (ws : List Chunk) : List Byte :=
  ws.foldl writeChunk buffer

/-- The shared buffer `htmlIOContent` after the run's writes; it starts empty (line 138). -/
def capture (ws : List Chunk) : List Byte := captureFrom [] ws

/-- The rendered form of a chunk: `startTag ++ html.EscapeString(p) ++ endTag`. -/
def rendered (w : Chunk) : List Byte :=
  w.1.writer.startTag ++ EscapeString w.2 ++ w.1.writer.endTag

/-- The rendered size of a chunk: `len(startTag) + len(html.EscapeString(p)) + len(endTag)`. -/
def renderedSize (w : Chunk) : Nat :=
  w.1.writer.startTag.length + (EscapeString w.2).length + w.1.writer.endTag.length

/-- The total rendered size of a sequence of writes. -/
def totalRendered (ws : List Chunk) : Nat := (ws.map renderedSize).sum

/-- The concatenation, in write order, of the rendered chunks. -/
def renderedAll (ws : List Chunk) : List Byte := (ws.map rendered).flatten

/-- The chunks of a run that pass the guard `b.buffer.Len() < 1000000`, in write
order, when the run starts from `buffer`. -/
def acceptedFrom (buffer : List Byte) : List Chunk → List Chunk
  | [] => []
  | w :: ws =>
    if buffer.length < 1000000 then w :: acceptedFrom (writeChunk buffer w) ws
    else acceptedFrom (writeChunk buffer w) ws

/-- The chunks accepted into the initially empty buffer. -/
def accepted (ws : List Chunk) : List Chunk := acceptedFrom [] ws

/-- The chunks of a run that fail the guard and are dropped, in write order, when
the run starts from `buffer`. -/
def droppedFrom (buffer : List Byte) : List Chunk → List Chunk
  | [] => []
  | w :: ws =>
    if buffer.length < 1000000 then droppedFrom (writeChunk buffer w) ws
    else w :: droppedFrom (writeChunk buffer w) ws

/-- The chunks dropped by a run on the initially empty buffer. -/
def dropped (ws : List Chunk) : List Chunk := droppedFrom [] ws

/-- The largest rendered size among the chunks of a run (0 for the empty run). -/
def maxRendered (ws : List Chunk) : Nat := (ws.map renderedSize).foldr max 0

/-- The total raw size of a run: the sum of `len(p)` over its writes. -/
def totalRaw (ws : List Chunk) : Nat := (ws.map (fun w => w.2.length)).sum

/-- A full pipe read of the copy loop: 32768 bytes `A` on stdout. -/
def fullChunk : Chunk := (Stream.stdout, List.replicate 32768 65)

/-- A full pipe read of 32768 line feeds on stdout. -/
def newlineChunk : Chunk := (Stream.stdout, List.replicate 32768 10)

/-! ## Termination state (`os.ProcessState`, `syscall.WaitStatus`) -/

/-- Go `syscall.WaitStatus` on Linux: a `uint32` holding the status word of `wait4`. -/
structure WaitStatus where
  bits : Nat
  deriving DecidableEq, Repr

/-- Go `func (w WaitStatus) Exited() bool { return w&mask == exited }` with mask `0x7F`. -/
def WaitStatus.Exited (w : WaitStatus) : Bool := w.bits &&& 0x7F == 0x00

/-- Go `Signaled`: `w&mask != stopped && w&mask != exited` with stopped `0x7F`. -/
def WaitStatus.Signaled (w : WaitStatus) : Bool :=
  w.bits &&& 0x7F != 0x7F && w.bits &&& 0x7F != 0x00

/-- Go `ExitStatus`: `-1` unless exited, else `int(w>>shift) & 0xFF` with shift 8. -/
def WaitStatus.ExitStatus (w : WaitStatus) : Int :=
  if !w.Exited then -1 else ((w.bits >>> 8) &&& 0xFF : Nat)

/-- Go `Signal`: `-1` unless signaled, else `Signal(w & mask)`. -/
def WaitStatus.Signal (w : WaitStatus) : Int :=
  if !w.Signaled then -1 else (w.bits &&& 0x7F : Nat)

/-- The state `cmd.ProcessState` points to after `cmd.Run()`, as far as the status
check reads it: either its `Sys()` value is a `syscall.WaitStatus`, or it is of some
other type and only `Success()` is known. -/
inductive ProcessState where
  | wait (status : WaitStatus)
  | foreign (success : Bool)
  deriving DecidableEq, Repr

/-- Go `ProcessState.Success`: on a wait status, `p.status.ExitStatus() == 0`. -/
def ProcessState.Success : ProcessState → Bool
  | .wait status => status.ExitStatus == 0
  | .foreign success => success

/-- The type assertion `cmd.ProcessState.Sys().(syscall.WaitStatus)`: `some status`
when `ok` is true. -/
def ProcessState.Sys : ProcessState → Option WaitStatus
  | .wait status => some status
  | .foreign _ => none

/-- Go `strconv.Itoa`: the decimal text of an `int`. -/
def Itoa (i : Int) : List Byte := str (toString i)

/-- The variables set by the status check. -/
structure CommandCheck where
  exitCode : Int
  commandStatus : List Byte

/-- The block "Check command status" (lines 150-168).  `signalString` stands for
`syscall.Signal.String`, whose name table is not part of this program. -/
def checkCommandStatus (signalString : Int → List Byte) (ps : ProcessState) : CommandCheck :=
  let exitCode : Int := 0
  let commandStatus := str "succeeded"
  if !ps.Success then
    let exitCode : Int := 125
    match ps.Sys with
    | some status =>
      if status.Exited then
        let exitCode := status.ExitStatus
        { exitCode := exitCode
          commandStatus := str "failed with exit code: " ++ Itoa exitCode }
      else if status.Signaled then
        { exitCode := exitCode
          commandStatus := str "failed with signal: " ++ EscapeString (signalString status.Signal) }
      else
        { exitCode := exitCode, commandStatus := str "failed with an unknown error." }
    | none =>
      { exitCode := exitCode, commandStatus := str "failed with an unknown error." }
  else
    { exitCode := exitCode, commandStatus := commandStatus }

/-- The code passed to `os.Exit` at line 228: the exit code of the status check,
replaced by 1 when `message.Send` returns an error (`sendErr = some _`). -/
def finalExitCode (signalString : Int → List Byte) (ps : ProcessState)
    (sendErr : Option String) : Int :=
  let exitCode := (checkCommandStatus signalString ps).exitCode
  match sendErr with
  | some _ => 1
  | none => exitCode

/-! ### The classification in the words of the specification -/

/-- The four termination outcomes of the specification. -/
inductive TerminationOutcome where
  | CleanExit
  | ExitCodeFailure (code : Int)
  | SignalFailure (signalName : List Byte)
  | UnknownFailure
  deriving DecidableEq, Repr

/-- The specification's classifier, its rules in priority order. -/
def classifySpec (signalString : Int → List Byte) (ps : ProcessState) : TerminationOutcome :=
  if ps.Success then .CleanExit
  else match ps.Sys with
    | some status =>
      if status.Exited then .ExitCodeFailure status.ExitStatus
      else if status.Signaled then .SignalFailure (signalString status.Signal)
      else .UnknownFailure
    | none => .UnknownFailure

/-- The specification's status line for an outcome. -/
def statusLineSpec : TerminationOutcome → List Byte
  | .CleanExit => str "succeeded"
  | .ExitCodeFailure code => str "failed with exit code: " ++ Itoa code
  | .SignalFailure signalName => str "failed with signal: " ++ EscapeString signalName
  | .UnknownFailure => str "failed with an unknown error."

/-- The specification's exit code for an outcome when the send succeeds. -/
def exitCodeSpec : TerminationOutcome → Int
  | .CleanExit => 0
  | .ExitCodeFailure code => code
  | .SignalFailure _ => 125
  | .UnknownFailure => 125

/-! ## Report composition (lines 173-218) -/

/-- Go `strings.Replace(s, "\n", "<br>\n", -1)`: every line feed byte becomes `<br>\n`. -/
def replaceNewlines (s : List Byte) : List Byte :=
  s.flatMap (fun c => if c = 10 then str "<br>\n" else [c])

/-- Go `strings.Join(elems, sep)`. -/
def Join (elems : List (List Byte)) (sep : List Byte) : List Byte :=
  List.intercalate sep elems

/-- The `content` buffer after the writes of lines 176-204: everything before the
output section.  `name` is `command[0]`, `args` is `cmd.Args`, and the two times are
the texts of `SystemTime().String()` and `UserTime().String()`. -/
def reportHead (subject name : List Byte) (args : List (List Byte))
    (commandStatus systemTime userTime : List Byte) : List Byte :=
  let content : List Byte := []
  let content := content ++ str "<!doctype html>\n<html lang=en>\n<head>\n<meta charset=utf-8>\n<title>"
  let content := content ++ subject
  let content := content ++ str "</title>\n<style>\n.stderr\x7bcolor:#f00;\x7d\n</style>\n</head>\n<body>\n<h1>Process \x27"
  let content := content ++ EscapeString name
  let content := content ++ str "\x27 "
  let content := content ++ commandStatus
  let content := content ++ str "</h1>\n"
  let content := content ++ str "Command: "
  let content := content ++ EscapeString (Join args (str " "))
  let content := content ++ str "<br>\nExecution took: "
  let content := content ++ systemTime
  let content := content ++ str " (system) "
  let content := content ++ userTime
  content ++ str " (user)<br>\n<br>\n"

/-- The text written before the captured output (lines 206-208). -/
def outputIntro : List Byte := str "STDOUT (black) and STDERR (red) follows:<br>\n<hr><br>\n"

/-- The truncation notice (lines 211-213). -/
def truncationNotice : List Byte := str "\n<hr>\nand more ..."

/-- The closing text (lines 216-218). -/
def reportClosing : List Byte := str "\n</body>\n</html>"

/-- The `content` buffer after the output section (lines 205-215) is written to it. -/
def writeOutputSection (content : List Byte) (mailOutput : Bool) (ioContent : List Byte) :
    List Byte :=
  if mailOutput then
    let content := content ++ outputIntro
    let content := content ++ ioContent
    if ioContent.length ≥ 1000000 then content ++ truncationNotice else content
  else content

/-- The composed email body, `content.String()` at line 221. -/
def composeEmail (subject name : List Byte) (args : List (List Byte))
    (commandStatus systemTime userTime : List Byte) (mailOutput : Bool)
    (htmlIOContent : List Byte) : List Byte :=
  let ioContent := replaceNewlines htmlIOContent
  let content := reportHead subject name args commandStatus systemTime userTime
  let content := writeOutputSection content mailOutput ioContent
  content ++ reportClosing

/-! ## Options and startup checks (lines 37-133) -/

/-- The `[message]` part of the configuration struct. -/
structure MessageSection where
  From : List Byte
  To : List Byte
  Subject : List Byte
  deriving DecidableEq, Repr

/-- The `[host]` part of the configuration struct. -/
structure HostSection where
  Address : List Byte
  Port : List Byte
  User : List Byte
  Password : List Byte
  deriving DecidableEq, Repr

/-- The anonymous `config` struct of `main` (lines 56-63). -/
structure Config where
  Message : MessageSection
  Host : HostSection
  deriving DecidableEq, Repr

/-- The values of the flags after `flag.Parse()` (lines 39-47); the default of each
string flag is the empty string, `-help` defaults to false and `-mail-output` to
true. -/
structure Flags where
  fromFlag : List Byte
  toFlag : List Byte
  subjectFlag : List Byte
  addressFlag : List Byte
  userFlag : List Byte
  passwordFlag : List Byte
  helpFlag : Bool
  mailOutputFlag : Bool
  deriving DecidableEq, Repr

/-- The block "Set and validate program options" (lines 73-116): the configuration
after the flags are laid over the values read from the file, and the variable
`missingConfiguration`.  The `fmt.Println` diagnostics are not part of the state. -/
def setAndValidate (flags : Flags) (config : Config) : Config × Bool :=
  let missingConfiguration := false
  let config : Config :=
    if flags.fromFlag.length > 0 then
      { config with Message := { config.Message with From := flags.fromFlag } }
    else config
  let missingConfiguration :=
    if config.Message.From.length == 0 then true else missingConfiguration
  let config : Config :=
    if flags.toFlag.length > 0 then
      { config with Message := { config.Message with To := flags.toFlag } }
    else config
  let missingConfiguration :=
    if config.Message.To.length == 0 then true else missingConfiguration
  let config : Config :=
    if flags.subjectFlag.length > 0 then
      { config with Message := { config.Message with Subject := flags.subjectFlag } }
    else config
  let config : Config :=
    if flags.addressFlag.length > 0 then
      { config with Host := { config.Host with Address := flags.addressFlag } }
    else config
  let missingConfiguration :=
    if config.Host.Address.length == 0 then true else missingConfiguration
  let config : Config :=
    if config.Host.Port.length == 0 then
      { config with Host := { config.Host with Port := str "25" } }
    else config
  let config : Config :=
    if flags.userFlag.length > 0 then
      { config with Host := { config.Host with User := flags.userFlag } }
    else config
  let missingConfiguration :=
    if config.Host.User.length == 0 then true else missingConfiguration
  let config : Config :=
    if flags.passwordFlag.length > 0 then
      { config with Host := { config.Host with Password := flags.passwordFlag } }
    else config
  let missingConfiguration :=
    if config.Host.Password.length == 0 then true else missingConfiguration
  (config, missingConfiguration)

/-- How the startup checks end: `os.Exit(code)`, or the program goes on to build and
run the command with the validated configuration. -/
inductive Startup where
  | exit (code : Int)
  | proceed (config : Config) (command : List (List Byte))
  deriving DecidableEq, Repr

/-- The block "Check command" (lines 124-133).  `lookPath name` is true when
`exec.LookPath(name)` returns a nil error. -/
def checkCommand (config : Config) (command : List (List Byte))
    (lookPath : List Byte → Bool) : Startup :=
  match command with
  | [] => Startup.exit 127
  | name :: _ => if lookPath name then Startup.proceed config command else Startup.exit 127

/-- Lines 47-133 of `main`: with `-help` the usage text is printed and the program
exits 0 before anything else (lines 49-54); otherwise option validation, exit 126 on
a missing value, then the command check.  `fileConfig` is the struct as
`gcfg.ReadFileInto` left it (lines 65-71). -/
def startup (flags : Flags) (fileConfig : Config) (command : List (List Byte))
    (lookPath : List Byte → Bool) : Startup :=
  if flags.helpFlag then Startup.exit 0
  else
    let validated := setAndValidate flags fileConfig
    if validated.2 then Startup.exit 126
    else checkCommand validated.1 command lookPath

/-- The merge in the words of the specification: the flag if it is non-empty, else the
value of the configuration file. -/
def mergedSpec (flagValue fileValue : List Byte) : List Byte :=
  if flagValue ≠ [] then flagValue else fileValue

/-- The configuration after the merge, in the words of the specification: flags
override file values, and the port defaults to 25. -/
def mergedConfigSpec (flags : Flags) (fileConfig : Config) : Config :=
  { Message :=
      { From := mergedSpec flags.fromFlag fileConfig.Message.From
        To := mergedSpec flags.toFlag fileConfig.Message.To
        Subject := mergedSpec flags.subjectFlag fileConfig.Message.Subject }
    Host :=
      { Address := mergedSpec flags.addressFlag fileConfig.Host.Address
        Port := if fileConfig.Host.Port = [] then str "25" else fileConfig.Host.Port
        User := mergedSpec flags.userFlag fileConfig.Host.User
        Password := mergedSpec flags.passwordFlag fileConfig.Host.Password } }

/-! ## The run after the startup checks (lines 135-228) -/

/-- The fields of `mail.Message` that `main` fills in (line 221).  The addresses are
the configured strings handed to `mail.ToAddress`. -/
structure Message where
  From : List Byte
  To : List (List Byte)
  Subject : List Byte
  Content : List Byte
  deriving DecidableEq, Repr

/-- What a run hands to the outside: the message given to `Send` and the code given
to `os.Exit`. -/
structure RunResult where
  message : Message
  exitCode : Int
  deriving DecidableEq, Repr

/-- Lines 135-228 of `main` for a child whose process state is `ps`: `name` is
`command[0]`, `rest` is `command[1:]`, `ws` are the writes the child's output causes,
the two times are the texts of the CPU times, and `sendErr` is what `message.Send`
returns.  The capture writers are installed only when `mailOutput` is set. -/
def runAndReport (signalString : Int → List Byte) (config : Config) (name : List Byte)
    (rest : List (List Byte)) (mailOutput : Bool) (ws : List Chunk) (ps : ProcessState)
    (systemTime userTime : List Byte) (sendErr : Option String) : RunResult :=
  let args := name :: rest
  let htmlIOContent : List Byte := if mailOutput then capture ws else []
  let check := checkCommandStatus signalString ps
  let exitCode := check.exitCode
  let commandStatus := check.commandStatus
  let config : Config :=
    if config.Message.Subject.length == 0 then
      { config with Message := { config.Message with Subject := str "Process " ++ commandStatus } }
    else config
  let content := composeEmail config.Message.Subject name args commandStatus systemTime
    userTime mailOutput htmlIOContent
  let message : Message :=
    { From := config.Message.From, To := [config.Message.To],
      Subject := config.Message.Subject, Content := content }
  let exitCode := match sendErr with
    | some _ => 1
    | none => exitCode
  { message := message, exitCode := exitCode }

/-- A run-time panic of the Go program. -/
inductive Panic where
  | nilPointerDereference
  deriving DecidableEq, Repr

/-- The status check on the pointer `cmd.ProcessState` itself.  `cmd.Run()` leaves the
pointer nil (`none`) when the command cannot be started, and its error is not looked
at (line 148); `(*ProcessState).Success` reads `p.status`, so line 153 panics on a
nil pointer. -/
def checkCommandStatusOf (signalString : Int → List Byte) (processState : Option ProcessState) :
    Except Panic CommandCheck :=
  match processState with
  | none => Except.error Panic.nilPointerDereference
  | some ps => Except.ok (checkCommandStatus signalString ps)

/-- No byte of `s` is one of `<`, `>`, `"` and `'`. -/
def noMarkup (s : List Byte) : Bool :=
  s.all (fun c => c != 60 && c != 62 && c != 34 && c != 39)

/-- The block of one accepted chunk after the line feeds are replaced: the tags as
they are, the escaped text with `<br>` markers. -/
def renderedWithBreaks (w : Chunk) : List Byte :=
  w.1.writer.startTag ++ replaceNewlines (EscapeString w.2) ++ w.1.writer.endTag

/-! ## The two copy goroutines (lines 138-148) -/

/-- The statement a `Write` call stands at: the guard of line 28, or one of the three
appends of lines 29, 30 and 31. -/
inductive WritePoint where
  | guard
  | startTag
  | body
  | endTag
  deriving DecidableEq, Repr

/-- One of the two copy goroutines that `cmd.Run()` starts, because `cmd.Stdout` and
`cmd.Stderr` are two distinct writers that are not files (lines 140-141): the chunks
it still has to hand to `Write`, the first of them being the call in progress, and
the statement that call stands at. -/
structure Copier where
  pending : List (List Byte)
  point : WritePoint
  deriving DecidableEq, Repr

/-- One statement of `Write` executed by a goroutine on the shared buffer.  Each
statement is taken as one indivisible step; `main.go` has no lock around them. -/
def stepWrite (b : bufferCSSWriter) (buffer : List Byte) (c : Copier) : List Byte × Copier :=
  match c.pending with
  | [] => (buffer, c)
  | p :: rest =>
    match c.point with
    | .guard =>
      if buffer.length < 1000000 then (buffer, { c with point := WritePoint.startTag })
      else (buffer, { pending := rest, point := WritePoint.guard })
    | .startTag => (buffer ++ b.startTag, { c with point := WritePoint.body })
    | .body => (buffer ++ EscapeString p, { c with point := WritePoint.endTag })
    | .endTag => (buffer ++ b.endTag, { pending := rest, point := WritePoint.guard })

/-- The shared buffer `htmlIOContent` and the two goroutines writing to it. -/
structure Copying where
  buffer : List Byte
  out : Copier
  err : Copier
  deriving DecidableEq, Repr

/-- The goroutine of stream `s` executes its next statement. -/
def stepStream (st : Copying) (s : Stream) : Copying :=
  match s with
  | .stdout =>
    let r := stepWrite stdoutWriter st.buffer st.out
    { st with buffer := r.1, out := r.2 }
  | .stderr =>
    let r := stepWrite stderrWriter st.buffer st.err
    { st with buffer := r.1, err := r.2 }

/-- The state after the goroutines take their steps in the order of `schedule`. -/
def runSchedule (schedule : List Stream) (st : Copying) : Copying :=
  schedule.foldl stepStream st

/-- A run in which the child writes "out\n" to stdout and "e<" to stderr. -/
def twoWrites : Copying :=
  { buffer := []
    out := { pending := [str "out\n"], point := WritePoint.guard }
    err := { pending := [str "e<"], point := WritePoint.guard } }

/-- The schedule in which the stdout goroutine passes the guard and appends its start
tag, the stderr goroutine then runs its whole `Write`, and the stdout goroutine
finishes. -/
def overlappingSchedule : List Stream :=
  [Stream.stdout, Stream.stdout, Stream.stderr, Stream.stderr, Stream.stderr, Stream.stderr,
   Stream.stdout, Stream.stdout]

/-! ## Lemmas on the capture sink -/

theorem rendered_length (w : Chunk) : (rendered w).length = renderedSize w := by
  simp [rendered, renderedSize, Nat.add_assoc]

theorem writeChunk_of_lt (buffer : List Byte) (w : Chunk) (h : buffer.length < 1000000) :
    writeChunk buffer w = buffer ++ rendered w := by
  simp [writeChunk, bufferCSSWriter.Write, rendered, h]

theorem writeChunk_of_ge (buffer : List Byte) (w : Chunk) (h : 1000000 ≤ buffer.length) :
    writeChunk buffer w = buffer := by
  have h' : ¬ buffer.length < 1000000 := by omega
  simp [writeChunk, bufferCSSWriter.Write, h']

theorem captureFrom_nil (buffer : List Byte) : captureFrom buffer [] = buffer := rfl

theorem captureFrom_cons (buffer : List Byte) (w : Chunk) (ws : List Chunk) :
    captureFrom buffer (w :: ws) = captureFrom (writeChunk buffer w) ws := rfl

theorem captureFrom_append (buffer : List Byte) (ws vs : List Chunk) :
    captureFrom buffer (ws ++ vs) = captureFrom (captureFrom buffer ws) vs := by
  simp [captureFrom, List.foldl_append]

theorem totalRendered_cons (w : Chunk) (ws : List Chunk) :
    totalRendered (w :: ws) = renderedSize w + totalRendered ws := by
  simp [totalRendered]

theorem renderedAll_cons (w : Chunk) (ws : List Chunk) :
    renderedAll (w :: ws) = rendered w ++ renderedAll ws := by
  simp [renderedAll]

/-- Below the cap nothing is dropped: from any buffer, if the buffer and all the
rendered chunks together stay below the cap, every chunk is appended. -/
theorem captureFrom_of_lt (ws : List Chunk) :
    ∀ buffer : List Byte, buffer.length + totalRendered ws < 1000000 →
      captureFrom buffer ws = buffer ++ renderedAll ws := by
  induction ws with
  | nil => intro buffer _; simp [captureFrom_nil, renderedAll]
  | cons w ws ih =>
    intro buffer h
    rw [totalRendered_cons] at h
    have hlt : buffer.length < 1000000 := by omega
    rw [captureFrom_cons, writeChunk_of_lt buffer w hlt, renderedAll_cons]
    rw [ih (buffer ++ rendered w) (by rw [List.length_append, rendered_length]; omega)]
    simp

theorem renderedAll_length (ws : List Chunk) : (renderedAll ws).length = totalRendered ws := by
  induction ws with
  | nil => rfl
  | cons w ws ih =>
    rw [renderedAll_cons, totalRendered_cons, List.length_append, rendered_length, ih]

theorem maxRendered_cons (w : Chunk) (ws : List Chunk) :
    maxRendered (w :: ws) = max (renderedSize w) (maxRendered ws) := rfl

/-- A write never shortens the buffer. -/
theorem Write_length_mono (b : bufferCSSWriter) (buffer p : List Byte) :
    buffer.length ≤ (b.Write buffer p).buffer.length := by
  unfold bufferCSSWriter.Write
  by_cases h : buffer.length < 1000000
  · simp only [h, if_true, List.length_append]; omega
  · simp [h]

/-- At or above the cap every chunk of the rest of the run is dropped. -/
theorem captureFrom_of_ge (ws : List Chunk) :
    ∀ buffer : List Byte, 1000000 ≤ buffer.length → captureFrom buffer ws = buffer := by
  induction ws with
  | nil => intro buffer _; rfl
  | cons w ws ih =>
    intro buffer h
    rw [captureFrom_cons, writeChunk_of_ge buffer w h]
    exact ih buffer h

theorem droppedFrom_of_ge (ws : List Chunk) :
    ∀ buffer : List Byte, 1000000 ≤ buffer.length → droppedFrom buffer ws = ws := by
  induction ws with
  | nil => intro buffer _; rfl
  | cons w ws ih =>
    intro buffer h
    have h' : ¬ buffer.length < 1000000 := by omega
    simp only [droppedFrom, h', if_false]
    rw [writeChunk_of_ge buffer w h, ih buffer h]

/-- The bound behind the cap: the run ends with the buffer it started from, or within
one accepted chunk of 999,999 bytes. -/
theorem captureFrom_last_accepted (ws : List Chunk) :
    ∀ buffer : List Byte,
      match (acceptedFrom buffer ws).getLast? with
      | none => captureFrom buffer ws = buffer
      | some w => (captureFrom buffer ws).length ≤ 999999 + renderedSize w := by
  induction ws with
  | nil => intro buffer; simp [acceptedFrom, captureFrom_nil]
  | cons w ws ih =>
    intro buffer
    by_cases h : buffer.length < 1000000
    · have hacc : acceptedFrom buffer (w :: ws) = w :: acceptedFrom (writeChunk buffer w) ws := by
        simp [acceptedFrom, h]
      rw [hacc, List.getLast?_cons, captureFrom_cons]
      have ih' := ih (writeChunk buffer w)
      cases hl : (acceptedFrom (writeChunk buffer w) ws).getLast? with
      | none =>
        rw [hl] at ih'
        simp only [Option.getD_none] at ih' ⊢
        rw [ih', writeChunk_of_lt buffer w h, List.length_append, rendered_length]
        omega
      | some x =>
        rw [hl] at ih'
        simpa using ih'
    · have hge : 1000000 ≤ buffer.length := by omega
      have hacc : acceptedFrom buffer (w :: ws) = acceptedFrom (writeChunk buffer w) ws := by
        simp [acceptedFrom, h]
      rw [hacc, captureFrom_cons, writeChunk_of_ge buffer w hge]
      exact ih buffer

/-- The buffer never grows past the larger of its start and 999,999 plus the largest
rendered chunk. -/
theorem captureFrom_length_le (ws : List Chunk) :
    ∀ buffer : List Byte,
      (captureFrom buffer ws).length ≤ max buffer.length (999999 + maxRendered ws) := by
  induction ws with
  | nil => intro buffer; rw [captureFrom_nil]; omega
  | cons w ws ih =>
    intro buffer
    rw [captureFrom_cons, maxRendered_cons]
    have ih' := ih (writeChunk buffer w)
    by_cases h : buffer.length < 1000000
    · have hl : (writeChunk buffer w).length = buffer.length + renderedSize w := by
        rw [writeChunk_of_lt buffer w h, List.length_append, rendered_length]
      omega
    · have hl : (writeChunk buffer w).length = buffer.length := by
        rw [writeChunk_of_ge buffer w (by omega)]
      omega

/-- Each write of a run either starts below the cap or leaves the buffer as it was. -/
theorem capture_take_succ (ws : List Chunk) (k : Nat) :
    (capture (ws.take k)).length < 1000000 ∨ capture (ws.take (k + 1)) = capture (ws.take k) := by
  by_cases h : (capture (ws.take k)).length < 1000000
  · exact Or.inl h
  · right
    rw [List.take_succ]
    unfold capture at h ⊢
    rw [captureFrom_append]
    exact captureFrom_of_ge _ _ (by omega)

theorem droppedFrom_of_lt (ws : List Chunk) :
    ∀ buffer : List Byte, buffer.length + totalRendered ws < 1000000 →
      droppedFrom buffer ws = [] := by
  induction ws with
  | nil => intro buffer _; rfl
  | cons w ws ih =>
    intro buffer h
    rw [totalRendered_cons] at h
    have hlt : buffer.length < 1000000 := by omega
    simp only [droppedFrom, hlt, if_true]
    apply ih
    rw [writeChunk_of_lt buffer w hlt, List.length_append, rendered_length]
    omega

/-- A run whose chunks do not all fit below the cap ends at or above the cap. -/
theorem captureFrom_length_ge (ws : List Chunk) :
    ∀ buffer : List Byte, 1000000 ≤ buffer.length + totalRendered ws →
      1000000 ≤ (captureFrom buffer ws).length := by
  induction ws with
  | nil => intro buffer h; simpa [totalRendered, captureFrom_nil] using h
  | cons w ws ih =>
    intro buffer h
    rw [totalRendered_cons] at h
    rw [captureFrom_cons]
    by_cases hlt : buffer.length < 1000000
    · apply ih
      rw [writeChunk_of_lt buffer w hlt, List.length_append, rendered_length]
      omega
    · rw [writeChunk_of_ge buffer w (by omega), captureFrom_of_ge ws buffer (by omega)]
      omega

/-- A run that drops a chunk ends at or above the cap. -/
theorem captureFrom_length_ge_of_dropped (ws : List Chunk) :
    ∀ buffer : List Byte, droppedFrom buffer ws ≠ [] →
      1000000 ≤ (captureFrom buffer ws).length := by
  induction ws with
  | nil => intro buffer h; exact absurd rfl h
  | cons w ws ih =>
    intro buffer h
    by_cases hlt : buffer.length < 1000000
    · simp only [droppedFrom, hlt, if_true] at h
      rw [captureFrom_cons]
      exact ih _ h
    · rw [captureFrom_of_ge (w :: ws) buffer (by omega)]
      omega

theorem escapeByte_length_pos (c : Byte) : 1 ≤ (escapeByte c).length := by
  unfold escapeByte
  split_ifs <;> first | decide | simp

theorem EscapeString_cons (c : Byte) (s : List Byte) :
    EscapeString (c :: s) = escapeByte c ++ EscapeString s := by
  simp [EscapeString]

/-- Escaping never shortens a string. -/
theorem EscapeString_length_ge (s : List Byte) : s.length ≤ (EscapeString s).length := by
  induction s with
  | nil => simp [EscapeString]
  | cons c s ih =>
    rw [EscapeString_cons, List.length_append, List.length_cons]
    have := escapeByte_length_pos c
    omega

/-- A run of one byte that is not special is escaped to itself. -/
theorem EscapeString_replicate (n : Nat) (c : Byte) (hc : escapeByte c = [c]) :
    EscapeString (List.replicate n c) = List.replicate n c := by
  induction n with
  | zero => rfl
  | succ n ih => rw [List.replicate_succ, EscapeString_cons, hc, ih]; rfl

theorem totalRaw_le_totalRendered (ws : List Chunk) : totalRaw ws ≤ totalRendered ws := by
  induction ws with
  | nil => simp [totalRaw, totalRendered]
  | cons w ws ih =>
    have h1 : totalRaw (w :: ws) = w.2.length + totalRaw ws := by simp [totalRaw]
    have h2 := EscapeString_length_ge w.2
    rw [h1, totalRendered_cons]
    unfold renderedSize
    omega

theorem replaceNewlines_cons (c : Byte) (s : List Byte) :
    replaceNewlines (c :: s) = (if c = 10 then str "<br>\n" else [c]) ++ replaceNewlines s := by
  simp [replaceNewlines]

/-- The replacement adds four bytes for every line feed. -/
theorem replaceNewlines_length (s : List Byte) :
    (replaceNewlines s).length = s.length + 4 * s.count 10 := by
  induction s with
  | nil => simp [replaceNewlines]
  | cons c s ih =>
    rw [replaceNewlines_cons, List.length_append, ih, List.length_cons, List.count_cons]
    by_cases hc : c = 10
    · subst hc
      have h5 : (str "<br>\n").length = 5 := by decide
      simp only [if_true, h5, beq_self_eq_true]
      omega
    · have hb : (c == 10) = false := by simpa using hc
      simp only [hc, if_false, hb, List.length_singleton, Bool.false_eq_true]
      omega

theorem replaceNewlines_length_ge (s : List Byte) : s.length ≤ (replaceNewlines s).length := by
  rw [replaceNewlines_length]; omega

theorem totalRendered_replicate (k : Nat) (w : Chunk) :
    totalRendered (List.replicate k w) = k * renderedSize w := by
  induction k with
  | zero => simp [totalRendered]
  | succ k ih => rw [List.replicate_succ, totalRendered_cons, ih, Nat.succ_mul]; omega

theorem count_renderedAll_replicate (k : Nat) (w : Chunk) :
    (renderedAll (List.replicate k w)).count 10 = k * (rendered w).count 10 := by
  induction k with
  | zero => simp [renderedAll]
  | succ k ih =>
    rw [List.replicate_succ, renderedAll_cons, List.count_append, ih, Nat.succ_mul]; omega

theorem stdout_startTag_length : Stream.stdout.writer.startTag.length = 21 := by decide

theorem stdout_endTag_length : Stream.stdout.writer.endTag.length = 7 := by decide

theorem renderedSize_replicate (s : Stream) (n : Nat) (c : Byte) (hc : escapeByte c = [c]) :
    renderedSize (s, List.replicate n c)
      = s.writer.startTag.length + n + s.writer.endTag.length := by
  unfold renderedSize
  rw [EscapeString_replicate n c hc, List.length_replicate]

theorem renderedSize_fullChunk : renderedSize fullChunk = 32796 := by
  unfold fullChunk
  rw [renderedSize_replicate _ _ _ (by decide), stdout_startTag_length, stdout_endTag_length]

theorem renderedSize_newlineChunk : renderedSize newlineChunk = 32796 := by
  unfold newlineChunk
  rw [renderedSize_replicate _ _ _ (by decide), stdout_startTag_length, stdout_endTag_length]

theorem count_rendered_newlineChunk : 32768 ≤ (rendered newlineChunk).count 10 := by
  unfold newlineChunk rendered
  rw [EscapeString_replicate _ _ (by decide), List.count_append, List.count_append,
    List.count_replicate_self]
  omega

/-- When all chunks but the last fit below the cap, the last one is accepted too. -/
theorem capture_concat_length (ws : List Chunk) (w : Chunk) (h : totalRendered ws < 1000000) :
    (capture (ws ++ [w])).length = totalRendered ws + renderedSize w := by
  unfold capture
  rw [captureFrom_append, captureFrom_of_lt ws [] (by simpa using h), List.nil_append,
    captureFrom_cons, captureFrom_nil,
    writeChunk_of_lt _ w (by rw [renderedAll_length]; exact h),
    List.length_append, renderedAll_length, rendered_length]

/-- Thirty-one full pipe reads: the thirty-first starts at 983,880 bytes and is accepted. -/
theorem capture_fullChunks_length : (capture (List.replicate 31 fullChunk)).length = 1016676 := by
  have h30 : totalRendered (List.replicate 30 fullChunk) = 983880 := by
    rw [totalRendered_replicate, renderedSize_fullChunk]
  have h := capture_concat_length (List.replicate 30 fullChunk) fullChunk (by rw [h30]; omega)
  rw [← List.replicate_succ', h30, renderedSize_fullChunk] at h
  exact h

/-- Seven full pipe reads of line feeds: nothing is dropped, yet the text with the
`<br>` markers is longer than the cap. -/
theorem newlineChunks_facts :
    totalRendered (List.replicate 7 newlineChunk) = 229572
    ∧ capture (List.replicate 7 newlineChunk) = renderedAll (List.replicate 7 newlineChunk)
    ∧ dropped (List.replicate 7 newlineChunk) = []
    ∧ 1000000 ≤ (replaceNewlines (capture (List.replicate 7 newlineChunk))).length := by
  have ht : totalRendered (List.replicate 7 newlineChunk) = 229572 := by
    rw [totalRendered_replicate, renderedSize_newlineChunk]
  have hc : capture (List.replicate 7 newlineChunk)
      = renderedAll (List.replicate 7 newlineChunk) := by
    have := captureFrom_of_lt (List.replicate 7 newlineChunk) [] (by rw [ht, List.length_nil]; omega)
    rw [List.nil_append] at this
    exact this
  refine ⟨ht, hc, droppedFrom_of_lt _ [] (by rw [ht, List.length_nil]; omega), ?_⟩
  rw [hc, replaceNewlines_length, renderedAll_length, ht, count_renderedAll_replicate]
  have := count_rendered_newlineChunk
  omega

/-! ## Lemmas on the termination state -/

theorem and_mask_eq_mod (n : Nat) : n &&& 0x7F = n % 128 := by
  simpa using Nat.and_pow_two_sub_one_eq_mod n 7

theorem shift_and_eq_div_mod (n : Nat) : (n >>> 8) &&& 0xFF = n / 256 % 256 := by
  have h := Nat.and_pow_two_sub_one_eq_mod (n >>> 8) 8
  rw [Nat.shiftRight_eq_div_pow] at h ⊢
  simpa using h

theorem WaitStatus.Exited_iff (w : WaitStatus) : w.Exited = true ↔ w.bits % 128 = 0 := by
  simp [WaitStatus.Exited, and_mask_eq_mod]

theorem WaitStatus.Signaled_iff (w : WaitStatus) :
    w.Signaled = true ↔ w.bits % 128 ≠ 127 ∧ w.bits % 128 ≠ 0 := by
  simp [WaitStatus.Signaled, and_mask_eq_mod]

theorem WaitStatus.ExitStatus_of_Exited (w : WaitStatus) (h : w.Exited = true) :
    w.ExitStatus = ((w.bits / 256 % 256 : Nat) : Int) := by
  simp [WaitStatus.ExitStatus, h, shift_and_eq_div_mod]

theorem WaitStatus.ExitStatus_of_not_Exited (w : WaitStatus) (h : w.Exited = false) :
    w.ExitStatus = -1 := by
  simp [WaitStatus.ExitStatus, h]

theorem WaitStatus.Signal_of_Signaled (w : WaitStatus) (h : w.Signaled = true) :
    w.Signal = ((w.bits % 128 : Nat) : Int) := by
  simp [WaitStatus.Signal, h, and_mask_eq_mod]

/-- The status line and the exit code of the status check, outcome by outcome. -/
theorem checkCommandStatus_eq_spec (signalString : Int → List Byte) (ps : ProcessState) :
    (checkCommandStatus signalString ps).commandStatus
        = statusLineSpec (classifySpec signalString ps)
    ∧ (checkCommandStatus signalString ps).exitCode
        = exitCodeSpec (classifySpec signalString ps) := by
  unfold checkCommandStatus classifySpec
  by_cases hs : ps.Success = true
  · simp [hs, statusLineSpec, exitCodeSpec]
  · simp only [hs, Bool.not_false, if_true, if_false, Bool.false_eq_true]
    cases hsys : ps.Sys with
    | none => simp [statusLineSpec, exitCodeSpec, hs]
    | some status =>
      by_cases he : status.Exited = true
      · simp [he, hs, statusLineSpec, exitCodeSpec]
      · by_cases hg : status.Signaled = true
        · simp [he, hg, hs, statusLineSpec, exitCodeSpec]
        · simp [he, hg, hs, statusLineSpec, exitCodeSpec]

/-- The classification read off the status word of `wait4`. -/
theorem classifySpec_wait (signalString : Int → List Byte) (w : WaitStatus) :
    classifySpec signalString (ProcessState.wait w)
      = if w.bits % 128 = 0 then
          (if w.bits / 256 % 256 = 0 then TerminationOutcome.CleanExit
           else TerminationOutcome.ExitCodeFailure ((w.bits / 256 % 256 : Nat) : Int))
        else if w.bits % 128 = 127 then TerminationOutcome.UnknownFailure
        else TerminationOutcome.SignalFailure (signalString ((w.bits % 128 : Nat) : Int)) := by
  simp only [classifySpec, ProcessState.Success, ProcessState.Sys]
  by_cases he : w.Exited = true
  · have hm := (WaitStatus.Exited_iff w).1 he
    rw [WaitStatus.ExitStatus_of_Exited w he]
    by_cases hz : w.bits / 256 % 256 = 0
    · simp [hm, hz]
    · have hb : (((w.bits / 256 % 256 : Nat) : Int) == 0) = false := by
        rw [beq_eq_false_iff_ne]
        exact_mod_cast hz
      rw [hb]
      simp only [hm, hz, he, if_true, if_false, Bool.false_eq_true]
  · have he' : w.Exited = false := by simpa using he
    have hm : ¬ w.bits % 128 = 0 := fun h => he ((WaitStatus.Exited_iff w).2 h)
    rw [WaitStatus.ExitStatus_of_not_Exited w he']
    by_cases hg : w.Signaled = true
    · have hg' := (WaitStatus.Signaled_iff w).1 hg
      rw [WaitStatus.Signal_of_Signaled w hg]
      simp [he', hg, hm, hg'.1]
    · have h127 : w.bits % 128 = 127 := by
        by_contra hne
        exact hg ((WaitStatus.Signaled_iff w).2 ⟨hne, hm⟩)
      simp [he', hg, hm, h127]

theorem classifySpec_foreign (signalString : Int → List Byte) (success : Bool) :
    classifySpec signalString (ProcessState.foreign success)
      = if success then TerminationOutcome.CleanExit else TerminationOutcome.UnknownFailure := by
  cases success <;> simp [classifySpec, ProcessState.Success, ProcessState.Sys]

theorem finalExitCode_none (signalString : Int → List Byte) (ps : ProcessState) :
    finalExitCode signalString ps none = exitCodeSpec (classifySpec signalString ps) := by
  simp only [finalExitCode]
  exact (checkCommandStatus_eq_spec signalString ps).2

theorem finalExitCode_wait (signalString : Int → List Byte) (w : WaitStatus) :
    finalExitCode signalString (ProcessState.wait w) none
      = if w.bits % 128 = 0 then ((w.bits / 256 % 256 : Nat) : Int) else 125 := by
  rw [finalExitCode_none, classifySpec_wait]
  by_cases hm : w.bits % 128 = 0
  · by_cases hz : w.bits / 256 % 256 = 0
    · simp [hm, hz, exitCodeSpec]
    · simp only [hm, hz, if_true, if_false, exitCodeSpec]
  · by_cases h127 : w.bits % 128 = 127
    · rw [if_neg hm, if_neg hm, if_pos h127]; rfl
    · rw [if_neg hm, if_neg hm, if_neg h127]; rfl

theorem finalExitCode_foreign (signalString : Int → List Byte) (success : Bool) :
    finalExitCode signalString (ProcessState.foreign success) none
      = if success then 0 else 125 := by
  rw [finalExitCode_none, classifySpec_foreign]
  cases success <;> simp [exitCodeSpec]

/-! ## Lemmas on the report -/

/-- The composed body: the head, the output section when capture is enabled, with the
notice when the text with the `<br>` markers has at least 1,000,000 bytes, and the
closing. -/
theorem composeEmail_eq (subject name : List Byte) (args : List (List Byte))
    (commandStatus systemTime userTime : List Byte) (mailOutput : Bool)
    (htmlIOContent : List Byte) :
    composeEmail subject name args commandStatus systemTime userTime mailOutput htmlIOContent
      = reportHead subject name args commandStatus systemTime userTime
        ++ (if mailOutput then
              outputIntro ++ replaceNewlines htmlIOContent
                ++ (if 1000000 ≤ (replaceNewlines htmlIOContent).length then truncationNotice
                    else [])
            else [])
        ++ reportClosing := by
  unfold composeEmail writeOutputSection
  cases mailOutput with
  | false => simp
  | true =>
    by_cases h : 1000000 ≤ (replaceNewlines htmlIOContent).length
    · simp [h]
    · simp [h]

theorem truncationNotice_length : truncationNotice.length = 18 := by decide

/-! ## Lemmas on the startup checks -/

theorem ite_length_pos (f c : List Byte) :
    (if f.length > 0 then f else c) = mergedSpec f c := by
  cases f <;> simp [mergedSpec]

theorem ite_config (c : Prop) [Decidable c] (a b : Config) :
    (if c then a else b)
      = { Message :=
            { From := if c then a.Message.From else b.Message.From
              To := if c then a.Message.To else b.Message.To
              Subject := if c then a.Message.Subject else b.Message.Subject }
          Host :=
            { Address := if c then a.Host.Address else b.Host.Address
              Port := if c then a.Host.Port else b.Host.Port
              User := if c then a.Host.User else b.Host.User
              Password := if c then a.Host.Password else b.Host.Password } } := by
  split <;> rfl

/-- The option block computes the merged configuration, and `missingConfiguration`
is set exactly when one of the five required values is empty after the merge. -/
theorem setAndValidate_eq (flags : Flags) (config : Config) :
    setAndValidate flags config
      = (mergedConfigSpec flags config,
         decide (mergedSpec flags.passwordFlag config.Host.Password = []
          ∨ mergedSpec flags.userFlag config.Host.User = []
          ∨ mergedSpec flags.addressFlag config.Host.Address = []
          ∨ mergedSpec flags.toFlag config.Message.To = []
          ∨ mergedSpec flags.fromFlag config.Message.From = [])) := by
  simp only [setAndValidate, ite_config, ite_self, ite_length_pos, mergedConfigSpec]
  simp

theorem checkCommand_ne_exit_126 (config : Config) (command : List (List Byte))
    (lookPath : List Byte → Bool) : checkCommand config command lookPath ≠ Startup.exit 126 := by
  unfold checkCommand
  cases command with
  | nil => simp
  | cons name rest => by_cases h : lookPath name = true <;> simp [h]

/-- The startup checks: exit 0 on `-help`, else exit 126 when a required value is
missing, the command check on the merged configuration otherwise. -/
theorem startup_eq (flags : Flags) (fileConfig : Config) (command : List (List Byte))
    (lookPath : List Byte → Bool) :
    startup flags fileConfig command lookPath
      = if flags.helpFlag = true then Startup.exit 0
        else if (mergedSpec flags.fromFlag fileConfig.Message.From = []
            ∨ mergedSpec flags.toFlag fileConfig.Message.To = []
            ∨ mergedSpec flags.addressFlag fileConfig.Host.Address = []
            ∨ mergedSpec flags.userFlag fileConfig.Host.User = []
            ∨ mergedSpec flags.passwordFlag fileConfig.Host.Password = [])
        then Startup.exit 126
        else checkCommand (mergedConfigSpec flags fileConfig) command lookPath := by
  unfold startup
  by_cases hh : flags.helpFlag = true
  · simp only [hh, if_true]
  · simp only [hh, if_false, Bool.false_eq_true]
    rw [setAndValidate_eq]
    by_cases h : (mergedSpec flags.fromFlag fileConfig.Message.From = []
              ∨ mergedSpec flags.toFlag fileConfig.Message.To = []
              ∨ mergedSpec flags.addressFlag fileConfig.Host.Address = []
              ∨ mergedSpec flags.userFlag fileConfig.Host.User = []
              ∨ mergedSpec flags.passwordFlag fileConfig.Host.Password = [])
    · have h' : (mergedSpec flags.passwordFlag fileConfig.Host.Password = []
            ∨ mergedSpec flags.userFlag fileConfig.Host.User = []
            ∨ mergedSpec flags.addressFlag fileConfig.Host.Address = []
            ∨ mergedSpec flags.toFlag fileConfig.Message.To = []
            ∨ mergedSpec flags.fromFlag fileConfig.Message.From = []) := by tauto
      rw [if_pos h]
      simp only [decide_eq_true h', if_true]
    · have h' : ¬ (mergedSpec flags.passwordFlag fileConfig.Host.Password = []
            ∨ mergedSpec flags.userFlag fileConfig.Host.User = []
            ∨ mergedSpec flags.addressFlag fileConfig.Host.Address = []
            ∨ mergedSpec flags.toFlag fileConfig.Message.To = []
            ∨ mergedSpec flags.fromFlag fileConfig.Message.From = []) := by tauto
      rw [if_neg h]
      simp only [decide_eq_false h', if_false, Bool.false_eq_true]

/-- A `Write` call that runs its statements without the other goroutine in between
does what `bufferCSSWriter.Write` does: below the cap its four steps append the block. -/
theorem stepWrite_alone_of_lt (b : bufferCSSWriter) (buffer p : List Byte)
    (rest : List (List Byte)) (h : buffer.length < 1000000) :
    let s1 := stepWrite b buffer { pending := p :: rest, point := WritePoint.guard }
    let s2 := stepWrite b s1.1 s1.2
    let s3 := stepWrite b s2.1 s2.2
    let s4 := stepWrite b s3.1 s3.2
    s4 = ((b.Write buffer p).buffer, { pending := rest, point := WritePoint.guard }) := by
  simp [stepWrite, bufferCSSWriter.Write, h]

/-- At or above the cap the call returns at its guard and the chunk is dropped. -/
theorem stepWrite_alone_of_ge (b : bufferCSSWriter) (buffer p : List Byte)
    (rest : List (List Byte)) (h : 1000000 ≤ buffer.length) :
    stepWrite b buffer { pending := p :: rest, point := WritePoint.guard }
      = ((b.Write buffer p).buffer, { pending := rest, point := WritePoint.guard }) := by
  have h' : ¬ buffer.length < 1000000 := by omega
  simp [stepWrite, bufferCSSWriter.Write, h']

/-! ## Lemmas on escaping and the run -/

theorem noMarkup_append (a b : List Byte) : noMarkup (a ++ b) = (noMarkup a && noMarkup b) := by
  simp [noMarkup, List.all_append]

theorem escapeByte_noMarkup (c : Byte) : noMarkup (escapeByte c) = true := by
  unfold escapeByte
  split_ifs <;> first | decide | simp [noMarkup, *]

/-- The text `html.EscapeString` returns has no `<`, `>`, `"` or `'` in it. -/
theorem EscapeString_noMarkup (s : List Byte) : noMarkup (EscapeString s) = true := by
  induction s with
  | nil => rfl
  | cons c s ih => rw [EscapeString_cons, noMarkup_append, escapeByte_noMarkup, ih]; rfl

/-- The head of the report, cut at the heading and at the command line. -/
theorem reportHead_eq (subject name : List Byte) (args : List (List Byte))
    (commandStatus systemTime userTime : List Byte) :
    reportHead subject name args commandStatus systemTime userTime
      = str "<!doctype html>\n<html lang=en>\n<head>\n<meta charset=utf-8>\n<title>"
        ++ subject
        ++ str "</title>\n<style>\n.stderr\x7bcolor:#f00;\x7d\n</style>\n</head>\n<body>\n"
        ++ (str "<h1>Process \x27" ++ EscapeString name ++ str "\x27 " ++ commandStatus
            ++ str "</h1>")
        ++ str "\n"
        ++ (str "Command: " ++ EscapeString (Join args (str " ")))
        ++ str "<br>\nExecution took: " ++ systemTime ++ str " (system) " ++ userTime
        ++ str " (user)<br>\n<br>\n" := by
  have h1 : str "</title>\n<style>\n.stderr\x7bcolor:#f00;\x7d\n</style>\n</head>\n<body>\n<h1>Process \x27"
      = str "</title>\n<style>\n.stderr\x7bcolor:#f00;\x7d\n</style>\n</head>\n<body>\n"
        ++ str "<h1>Process \x27" := by decide
  have h2 : str "</h1>\n" = str "</h1>" ++ str "\n" := by decide
  unfold reportHead
  rw [h1, h2]
  simp only [List.nil_append, List.append_assoc]

theorem runAndReport_subject (signalString : Int → List Byte) (config : Config)
    (name : List Byte) (rest : List (List Byte)) (mailOutput : Bool) (ws : List Chunk)
    (ps : ProcessState) (systemTime userTime : List Byte) (sendErr : Option String) :
    (runAndReport signalString config name rest mailOutput ws ps systemTime userTime
        sendErr).message.Subject
      = if config.Message.Subject = [] then
          str "Process " ++ (checkCommandStatus signalString ps).commandStatus
        else config.Message.Subject := by
  unfold runAndReport
  by_cases h : config.Message.Subject = []
  · simp [h]
  · simp [h]

theorem runAndReport_content (signalString : Int → List Byte) (config : Config)
    (name : List Byte) (rest : List (List Byte)) (mailOutput : Bool) (ws : List Chunk)
    (ps : ProcessState) (systemTime userTime : List Byte) (sendErr : Option String) :
    (runAndReport signalString config name rest mailOutput ws ps systemTime userTime
        sendErr).message.Content
      = composeEmail
          (runAndReport signalString config name rest mailOutput ws ps systemTime userTime
            sendErr).message.Subject
          name (name :: rest) (checkCommandStatus signalString ps).commandStatus
          systemTime userTime mailOutput (if mailOutput then capture ws else []) := by
  rfl

theorem runAndReport_exitCode (signalString : Int → List Byte) (config : Config)
    (name : List Byte) (rest : List (List Byte)) (mailOutput : Bool) (ws : List Chunk)
    (ps : ProcessState) (systemTime userTime : List Byte) (sendErr : Option String) :
    (runAndReport signalString config name rest mailOutput ws ps systemTime userTime
        sendErr).exitCode = finalExitCode signalString ps sendErr := by
  rfl

theorem commandStatus_of_Success (signalString : Int → List Byte) (ps : ProcessState)
    (h : ps.Success = true) : (checkCommandStatus signalString ps).commandStatus = str "succeeded" := by
  simp [checkCommandStatus, h]

theorem replaceNewlines_append (a b : List Byte) :
    replaceNewlines (a ++ b) = replaceNewlines a ++ replaceNewlines b := by
  simp [replaceNewlines, List.flatMap_append]

/-! ## Lemmas on the blocks of the capture buffer -/

theorem Success_wait_iff (w : WaitStatus) :
    (ProcessState.wait w).Success = true ↔ w.bits % 128 = 0 ∧ w.bits / 256 % 256 = 0 := by
  simp only [ProcessState.Success]
  by_cases he : w.Exited = true
  · have hm := (WaitStatus.Exited_iff w).1 he
    rw [WaitStatus.ExitStatus_of_Exited w he]
    constructor
    · intro h
      have h0 : ((w.bits / 256 % 256 : Nat) : Int) = 0 := by simpa using h
      exact ⟨hm, by exact_mod_cast h0⟩
    · rintro ⟨_, hz⟩
      rw [hz]; rfl
  · have he' : w.Exited = false := by simpa using he
    have hm : ¬ w.bits % 128 = 0 := fun h => he ((WaitStatus.Exited_iff w).2 h)
    rw [WaitStatus.ExitStatus_of_not_Exited w he']
    constructor
    · intro h; exact absurd h (by decide)
    · rintro ⟨h, _⟩; exact absurd h hm

/-- The buffer of a run is its start followed by the rendered accepted chunks. -/
theorem captureFrom_eq_accepted (ws : List Chunk) :
    ∀ buffer : List Byte,
      captureFrom buffer ws = buffer ++ renderedAll (acceptedFrom buffer ws) := by
  induction ws with
  | nil => intro buffer; simp [captureFrom_nil, acceptedFrom, renderedAll]
  | cons w ws ih =>
    intro buffer
    rw [captureFrom_cons, ih]
    by_cases h : buffer.length < 1000000
    · simp only [acceptedFrom, h, if_true]
      rw [renderedAll_cons, writeChunk_of_lt buffer w h, List.append_assoc]
    · simp only [acceptedFrom, h, if_false]
      rw [writeChunk_of_ge buffer w (by omega)]

theorem replaceNewlines_startTag (s : Stream) :
    replaceNewlines s.writer.startTag = s.writer.startTag := by
  cases s <;> decide

theorem replaceNewlines_endTag (s : Stream) :
    replaceNewlines s.writer.endTag = s.writer.endTag := by
  cases s <;> decide

theorem replaceNewlines_rendered (w : Chunk) :
    replaceNewlines (rendered w) = renderedWithBreaks w := by
  unfold rendered renderedWithBreaks
  rw [replaceNewlines_append, replaceNewlines_append, replaceNewlines_startTag,
    replaceNewlines_endTag]

theorem replaceNewlines_renderedAll (ws : List Chunk) :
    replaceNewlines (renderedAll ws) = (ws.map renderedWithBreaks).flatten := by
  induction ws with
  | nil => rfl
  | cons w ws ih =>
    rw [renderedAll_cons, replaceNewlines_append, replaceNewlines_rendered, ih]
    simp

theorem count_eq_zero_of_noMarkup (s : List Byte) (h : noMarkup s = true) :
    s.count 60 = 0 ∧ s.count 62 = 0 := by
  unfold noMarkup at h
  rw [List.all_eq_true] at h
  constructor
  · rw [List.count_eq_zero]
    intro hm
    have := h 60 hm
    simp at this
  · rw [List.count_eq_zero]
    intro hm
    have := h 62 hm
    simp at this

theorem count_rendered (w : Chunk) : (rendered w).count 60 = 2 ∧ (rendered w).count 62 = 2 := by
  have h := count_eq_zero_of_noMarkup _ (EscapeString_noMarkup w.2)
  have hs : w.1.writer.startTag.count 60 = 1 ∧ w.1.writer.startTag.count 62 = 1
      ∧ w.1.writer.endTag.count 60 = 1 ∧ w.1.writer.endTag.count 62 = 1 := by
    cases w.1 <;> decide
  unfold rendered
  rw [List.count_append, List.count_append, List.count_append, List.count_append]
  omega

theorem count_renderedAll (ws : List Chunk) :
    (renderedAll ws).count 60 = 2 * ws.length ∧ (renderedAll ws).count 62 = 2 * ws.length := by
  induction ws with
  | nil => simp [renderedAll]
  | cons w ws ih =>
    have h := count_rendered w
    rw [renderedAll_cons, List.count_append, List.count_append, List.length_cons]
    omega

/-- The replacement adds one `<` and one `>` for every line feed. -/
theorem count_replaceNewlines (s : List Byte) :
    (replaceNewlines s).count 60 = s.count 60 + s.count 10
    ∧ (replaceNewlines s).count 62 = s.count 62 + s.count 10 := by
  induction s with
  | nil => simp [replaceNewlines]
  | cons c s ih =>
    rw [replaceNewlines_cons, List.count_append, List.count_append]
    by_cases hc : c = 10
    · subst hc
      have h1 : (str "<br>\n").count 60 = 1 ∧ (str "<br>\n").count 62 = 1 := by decide
      have h2 : ((10 : Byte) :: s).count 60 = s.count 60 := by
        rw [List.count_cons]; simp
      have h3 : ((10 : Byte) :: s).count 62 = s.count 62 := by
        rw [List.count_cons]; simp
      have h4 : ((10 : Byte) :: s).count 10 = s.count 10 + 1 := by
        rw [List.count_cons]; simp
      simp only [if_true]
      omega
    · have h4 : (c :: s).count 10 = s.count 10 := by
        rw [List.count_cons]; simp [hc]
      have h2 : (c :: s).count 60 = [c].count 60 + s.count 60 := by
        rw [← List.count_append]; rfl
      have h3 : (c :: s).count 62 = [c].count 62 + s.count 62 := by
        rw [← List.count_append]; rfl
      simp only [hc, if_false]
      omega

/-! ## Theorems on the capture sink -/

/-- C1: for every sequence of writes (each through the stdout or the stderr writer,
on one shared, initially empty buffer) whose total rendered size is below 1,000,000
bytes, the buffer after the last write is exactly the concatenation, in write order,
of `startTag ++ html.EscapeString(p) ++ endTag` over all the writes. -/
theorem capture_eq_renderedAll_of_lt_cap (ws : List Chunk) (h : totalRendered ws < 1000000) :
    capture ws = renderedAll ws := by
  have h' : ([] : List Byte).length + totalRendered ws < 1000000 := by simpa using h
  simpa [capture] using captureFrom_of_lt ws [] h'

/-- A run with a stdout chunk, a stderr chunk with special characters, and another
stdout chunk: it stays below the cap and all three chunks are in the buffer. -/
theorem capture_eq_renderedAll_of_lt_cap_witness :
    totalRendered [(Stream.stdout, str "hi\n"), (Stream.stderr, str "a<b & c"),
        (Stream.stdout, str "bye")] < 1000000
    ∧ capture [(Stream.stdout, str "hi\n"), (Stream.stderr, str "a<b & c"),
        (Stream.stdout, str "bye")]
      = renderedAll [(Stream.stdout, str "hi\n"), (Stream.stderr, str "a<b & c"),
        (Stream.stdout, str "bye")] :=
  ⟨by decide, capture_eq_renderedAll_of_lt_cap _ (by decide)⟩

/-- C3: for every sequence of writes on the shared capture buffer, the final buffer
length is at most 999,999 plus the rendered size of the last chunk that was accepted,
and 0 when no chunk was accepted; and every write of the run either started at a
buffer length below 1,000,000 or left the buffer unchanged. -/
theorem capture_length_le_last_accepted (ws : List Chunk) :
    (capture ws).length ≤ (match (accepted ws).getLast? with
      | none => 0
      | some w => 999999 + renderedSize w)
    ∧ ∀ k : Nat, (capture (ws.take k)).length < 1000000
        ∨ capture (ws.take (k + 1)) = capture (ws.take k) := by
  refine ⟨?_, capture_take_succ ws⟩
  have h := captureFrom_last_accepted ws []
  unfold capture accepted
  cases hl : (acceptedFrom [] ws).getLast? with
  | none => rw [hl] at h; simp only at h ⊢; rw [h]; exact Nat.le_refl _
  | some w => rw [hl] at h; exact h

/-- C4 (as amended): after every write of a run, the buffer length is at most 999,999
plus the largest rendered chunk size written so far; the cap bounds the length at
which a chunk is accepted, not the length after it. -/
theorem capture_take_length_le (ws : List Chunk) (k : Nat) :
    (capture (ws.take k)).length ≤ 999999 + maxRendered (ws.take k) := by
  have h := captureFrom_length_le (ws.take k) []
  unfold capture
  simp only [List.length_nil] at h
  omega

/-- C6: `Write` always reports success: it returns `n = len(p)` and a nil error for
every buffer, every pair of tags and every chunk, appended or dropped. -/
theorem Write_reports_success (b : bufferCSSWriter) (buffer p : List Byte) :
    (b.Write buffer p).n = p.length ∧ (b.Write buffer p).err = none
    ∧ ((b.Write buffer p).buffer = buffer
        ∨ (b.Write buffer p).buffer = buffer ++ b.startTag ++ EscapeString p ++ b.endTag) := by
  refine ⟨rfl, rfl, ?_⟩
  unfold bufferCSSWriter.Write
  by_cases h : buffer.length < 1000000
  · right; simp [h]
  · left; simp [h]

/-- C7: once the buffer length is at least 1,000,000, a write through any writer leaves
the buffer unchanged, every later write of the run is dropped as well, and no write
ever shortens the buffer. -/
theorem Write_dropped_at_cap (buffer : List Byte) (h : 1000000 ≤ buffer.length) :
    (∀ (b : bufferCSSWriter) (p : List Byte), (b.Write buffer p).buffer = buffer)
    ∧ (∀ ws : List Chunk, captureFrom buffer ws = buffer ∧ droppedFrom buffer ws = ws)
    ∧ (∀ (b : bufferCSSWriter) (buf p : List Byte), buf.length ≤ (b.Write buf p).buffer.length) := by
  refine ⟨?_, ?_, Write_length_mono⟩
  · intro b p
    have h' : ¬ buffer.length < 1000000 := by omega
    simp [bufferCSSWriter.Write, h']
  · intro ws
    exact ⟨captureFrom_of_ge ws buffer h, droppedFrom_of_ge ws buffer h⟩

/-- The run of C4's counterexample: thirty-one full pipe reads (32768 bytes each) on
stdout leave 1,016,676 bytes in the buffer, more than 1,000,000. -/
theorem capture_exceeds_cap :
    ¬ (capture (List.replicate 31 fullChunk)).length ≤ 1000000 := by
  rw [capture_fullChunks_length]; omega

/-- A buffer that has reached the cap (after thirty-one full pipe reads) keeps its
content through a further stdout write and through any further run. -/
theorem Write_dropped_at_cap_witness :
    1000000 ≤ (capture (List.replicate 31 fullChunk)).length
    ∧ (stdoutWriter.Write (capture (List.replicate 31 fullChunk)) (str "late\n")).buffer
        = capture (List.replicate 31 fullChunk)
    ∧ captureFrom (capture (List.replicate 31 fullChunk))
          [(Stream.stderr, str "x"), (Stream.stdout, str "y")]
        = capture (List.replicate 31 fullChunk) :=
  have h : 1000000 ≤ (capture (List.replicate 31 fullChunk)).length := by
    rw [capture_fullChunks_length]; omega
  ⟨h, (Write_dropped_at_cap _ h).1 stdoutWriter (str "late\n"),
    ((Write_dropped_at_cap _ h).2.1 [(Stream.stderr, str "x"), (Stream.stdout, str "y")]).1⟩

/-! ## Theorems on the report -/

/-- C2 (the code at the failing input): seven stdout writes of 32768 line feeds each
have total rendered size 229,572, below 1,000,000, and none of them is dropped; yet
with capture enabled the composed report carries the truncation notice after the
output section, so it is not the report that ends with the closing alone. -/
theorem composeEmail_notice_below_cap (subject name : List Byte) (args : List (List Byte))
    (commandStatus systemTime userTime : List Byte) :
    totalRendered (List.replicate 7 newlineChunk) < 1000000
    ∧ dropped (List.replicate 7 newlineChunk) = []
    ∧ composeEmail subject name args commandStatus systemTime userTime true
          (capture (List.replicate 7 newlineChunk))
        = reportHead subject name args commandStatus systemTime userTime ++ outputIntro
          ++ replaceNewlines (capture (List.replicate 7 newlineChunk))
          ++ truncationNotice ++ reportClosing
    ∧ composeEmail subject name args commandStatus systemTime userTime true
          (capture (List.replicate 7 newlineChunk))
        ≠ reportHead subject name args commandStatus systemTime userTime ++ outputIntro
          ++ replaceNewlines (capture (List.replicate 7 newlineChunk))
          ++ reportClosing := by
  obtain ⟨ht, _, hd, hlen⟩ := newlineChunks_facts
  have heq := composeEmail_eq subject name args commandStatus systemTime userTime true
    (capture (List.replicate 7 newlineChunk))
  simp only [if_true, hlen] at heq
  refine ⟨by rw [ht]; omega, hd, ?_, ?_⟩
  · rw [heq]; simp only [List.append_assoc]
  · rw [heq]
    intro hcontra
    have hl := congrArg List.length hcontra
    simp only [List.length_append, truncationNotice_length] at hl
    omega

/-- C5: for every sequence of writes, with capture enabled, whose cumulative rendered
size, or whose cumulative raw input size, is at least 1,000,000 bytes, or in which at
least one chunk was dropped, the composed report has the truncation notice directly
after the output section. -/
theorem composeEmail_notice_of_cap_reached (subject name : List Byte)
    (args : List (List Byte)) (commandStatus systemTime userTime : List Byte)
    (ws : List Chunk)
    (h : 1000000 ≤ totalRendered ws ∨ 1000000 ≤ totalRaw ws ∨ dropped ws ≠ []) :
    composeEmail subject name args commandStatus systemTime userTime true (capture ws)
      = reportHead subject name args commandStatus systemTime userTime ++ outputIntro
        ++ replaceNewlines (capture ws) ++ truncationNotice ++ reportClosing := by
  have hcap : 1000000 ≤ (capture ws).length := by
    unfold capture
    rcases h with h | h | h
    · exact captureFrom_length_ge ws [] (by simpa using h)
    · have := totalRaw_le_totalRendered ws
      exact captureFrom_length_ge ws [] (by rw [List.length_nil]; omega)
    · exact captureFrom_length_ge_of_dropped ws [] h
  have hio : 1000000 ≤ (replaceNewlines (capture ws)).length :=
    Nat.le_trans hcap (replaceNewlines_length_ge _)
  rw [composeEmail_eq]
  simp only [if_true, hio, List.append_assoc]

/-- Thirty-one full pipe reads on stdout reach the cap, and the report of that run
carries the notice. -/
theorem composeEmail_notice_of_cap_reached_witness :
    (1000000 ≤ totalRendered (List.replicate 31 fullChunk)
      ∨ 1000000 ≤ totalRaw (List.replicate 31 fullChunk)
      ∨ dropped (List.replicate 31 fullChunk) ≠ [])
    ∧ composeEmail (str "Process succeeded") (str "yes") [str "yes", str "A"]
          (str "succeeded") (str "4ms") (str "8ms") true (capture (List.replicate 31 fullChunk))
        = reportHead (str "Process succeeded") (str "yes") [str "yes", str "A"]
            (str "succeeded") (str "4ms") (str "8ms") ++ outputIntro
          ++ replaceNewlines (capture (List.replicate 31 fullChunk))
          ++ truncationNotice ++ reportClosing :=
  have h : 1000000 ≤ totalRendered (List.replicate 31 fullChunk) := by
    rw [totalRendered_replicate, renderedSize_fullChunk]; omega
  ⟨Or.inl h, composeEmail_notice_of_cap_reached _ _ _ _ _ _ _ (Or.inl h)⟩

/-! ## Theorems on the termination state -/

/-- C8: for every process state the status line is the one of its outcome, the
outcomes taken in priority order: success gives "succeeded"; otherwise an exit with
status N gives "failed with exit code: " and N in decimal; otherwise a signal gives
"failed with signal: " and the escaped signal name; otherwise, or when the state is
not a wait status, "failed with an unknown error.". -/
theorem commandStatus_eq_statusLine (signalString : Int → List Byte) (ps : ProcessState) :
    (checkCommandStatus signalString ps).commandStatus
      = (if ps.Success then str "succeeded"
         else match ps.Sys with
          | some status =>
            if status.Exited then str "failed with exit code: " ++ Itoa status.ExitStatus
            else if status.Signaled then
              str "failed with signal: " ++ EscapeString (signalString status.Signal)
            else str "failed with an unknown error."
          | none => str "failed with an unknown error.")
    ∧ (checkCommandStatus signalString ps).commandStatus
      = statusLineSpec (classifySpec signalString ps)
    ∧ (∀ w : WaitStatus, classifySpec signalString (ProcessState.wait w)
        = if w.bits % 128 = 0 then
            (if w.bits / 256 % 256 = 0 then TerminationOutcome.CleanExit
             else TerminationOutcome.ExitCodeFailure ((w.bits / 256 % 256 : Nat) : Int))
          else if w.bits % 128 = 127 then TerminationOutcome.UnknownFailure
          else TerminationOutcome.SignalFailure (signalString ((w.bits % 128 : Nat) : Int)))
    ∧ (∀ success : Bool, classifySpec signalString (ProcessState.foreign success)
        = if success then TerminationOutcome.CleanExit
          else TerminationOutcome.UnknownFailure) := by
  refine ⟨?_, (checkCommandStatus_eq_spec signalString ps).1, classifySpec_wait signalString,
    classifySpec_foreign signalString⟩
  rw [(checkCommandStatus_eq_spec signalString ps).1]
  unfold classifySpec
  by_cases hs : ps.Success = true
  · simp [hs, statusLineSpec]
  · simp only [hs, if_false, Bool.false_eq_true]
    cases ps.Sys with
    | none => simp [statusLineSpec]
    | some status =>
      by_cases he : status.Exited = true
      · simp [he, statusLineSpec]
      · by_cases hg : status.Signaled = true
        · simp [he, hg, statusLineSpec]
        · simp [he, hg, statusLineSpec]

/-- C9: for every termination state and delivery result the final exit code is 1 when
the send returns an error; otherwise 0 for a child that succeeded, the child's own
exit status for a non-zero exit (never 0 in that case; 3 for status 3), and 125 for a
signal or an unclassifiable state. -/
theorem finalExitCode_spec (signalString : Int → List Byte) (ps : ProcessState)
    (sendErr : Option String) :
    finalExitCode signalString ps sendErr
      = (match sendErr with
         | some _ => 1
         | none =>
           match classifySpec signalString ps with
           | .CleanExit => 0
           | .ExitCodeFailure code => code
           | .SignalFailure _ => 125
           | .UnknownFailure => 125)
    ∧ classifySpec signalString ps ≠ TerminationOutcome.ExitCodeFailure 0
    ∧ (∀ w : WaitStatus, finalExitCode signalString (ProcessState.wait w) none
        = if w.bits % 128 = 0 then ((w.bits / 256 % 256 : Nat) : Int) else 125)
    ∧ finalExitCode signalString (ProcessState.wait ⟨0x0300⟩) none = 3 := by
  refine ⟨?_, ?_, finalExitCode_wait signalString, ?_⟩
  · cases sendErr with
    | some e => rfl
    | none =>
      rw [finalExitCode_none]
      cases classifySpec signalString ps <;> rfl
  · cases ps with
    | wait w =>
      rw [classifySpec_wait]
      by_cases hm : w.bits % 128 = 0
      · by_cases hz : w.bits / 256 % 256 = 0
        · simp [hm, hz]
        · simp only [hm, hz, if_true, if_false]
          intro hc
          injection hc with hc
          exact hz (by exact_mod_cast hc)
      · by_cases h127 : w.bits % 128 = 127
        · simp [hm, h127]
        · simp [hm, h127]
    | foreign success =>
      rw [classifySpec_foreign]
      cases success <;> simp
  · rw [finalExitCode_wait]
    decide

/-- The counterexample of C10: a child that exits with status 1 (wait status 0x0100)
and a send that succeeds give final exit code 1. -/
theorem finalExitCode_one_with_send_ok :
    finalExitCode (fun _ => []) (ProcessState.wait ⟨0x0100⟩) none = 1 := by
  decide

/-- C10 (as amended): when the send succeeds, the final exit code is 1 exactly when
the child itself exited with status 1; for every other termination state it differs
from the code of a failed send. -/
theorem finalExitCode_eq_one_iff (signalString : Int → List Byte) (ps : ProcessState) :
    (∀ e : String, finalExitCode signalString ps (some e) = 1)
    ∧ (finalExitCode signalString ps none = 1
        ↔ ∃ w : WaitStatus, ps = ProcessState.wait w ∧ w.Exited = true ∧ w.ExitStatus = 1) := by
  refine ⟨fun _ => rfl, ?_⟩
  cases ps with
  | wait w =>
    rw [finalExitCode_wait]
    by_cases he : w.Exited = true
    · have hm := (WaitStatus.Exited_iff w).1 he
      simp only [hm, if_true]
      constructor
      · intro h
        exact ⟨w, rfl, he, by rw [WaitStatus.ExitStatus_of_Exited w he]; exact h⟩
      · rintro ⟨w', hw, _, hs⟩
        cases hw
        rw [WaitStatus.ExitStatus_of_Exited w he] at hs
        exact hs
    · have hm : ¬ w.bits % 128 = 0 := fun h => he ((WaitStatus.Exited_iff w).2 h)
      simp only [hm, if_false]
      constructor
      · intro h; exact absurd h (by decide)
      · rintro ⟨w', hw, he', _⟩
        cases hw
        exact absurd he' he
  | foreign success =>
    rw [finalExitCode_foreign]
    constructor
    · intro h
      cases success
      · exact absurd h (by decide)
      · exact absurd h (by decide)
    · rintro ⟨w, hw, _, _⟩
      cases hw

/-! ## Theorems on the startup checks -/

/-- The counterexample of C11: `cmdmailer -help` with no flag value and no value in
the configuration file.  All five required values are empty after the merge, yet the
program exits 0, not 126. -/
theorem startup_help_exits_zero :
    mergedSpec [] [] = []
    ∧ startup
        { fromFlag := [], toFlag := [], subjectFlag := [], addressFlag := [], userFlag := [],
          passwordFlag := [], helpFlag := true, mailOutputFlag := true }
        { Message := { From := [], To := [], Subject := [] },
          Host := { Address := [], Port := [], User := [], Password := [] } }
        [] (fun _ => false)
      = Startup.exit 0
    ∧ startup
        { fromFlag := [], toFlag := [], subjectFlag := [], addressFlag := [], userFlag := [],
          passwordFlag := [], helpFlag := true, mailOutputFlag := true }
        { Message := { From := [], To := [], Subject := [] },
          Host := { Address := [], Port := [], User := [], Password := [] } }
        [] (fun _ => false)
      ≠ Startup.exit 126 := by
  decide

/-- C11 (as amended): with each required value merged as the flag if it is non-empty,
else the value of the configuration file, the startup checks end in exit code 126 if
and only if `-help` is not given and one of from, to, host address, user and password
is empty after the merge; this does not depend on the command or on whether it can be
found; the checks end with exit 0 on `-help`, with 126, or they go on to the command
check, which never ends in 126. -/
theorem startup_exit_126_iff (flags : Flags) (fileConfig : Config)
    (command : List (List Byte)) (lookPath : List Byte → Bool) :
    (startup flags fileConfig command lookPath = Startup.exit 126
      ↔ flags.helpFlag = false
        ∧ (mergedSpec flags.fromFlag fileConfig.Message.From = []
          ∨ mergedSpec flags.toFlag fileConfig.Message.To = []
          ∨ mergedSpec flags.addressFlag fileConfig.Host.Address = []
          ∨ mergedSpec flags.userFlag fileConfig.Host.User = []
          ∨ mergedSpec flags.passwordFlag fileConfig.Host.Password = []))
    ∧ (∀ (command2 : List (List Byte)) (lookPath2 : List Byte → Bool),
        (startup flags fileConfig command2 lookPath2 = Startup.exit 126
          ↔ startup flags fileConfig command lookPath = Startup.exit 126))
    ∧ ((flags.helpFlag = true ∧ startup flags fileConfig command lookPath = Startup.exit 0)
        ∨ (flags.helpFlag = false
            ∧ startup flags fileConfig command lookPath = Startup.exit 126)
        ∨ (flags.helpFlag = false
            ∧ startup flags fileConfig command lookPath
              = checkCommand (mergedConfigSpec flags fileConfig) command lookPath))
    ∧ checkCommand (mergedConfigSpec flags fileConfig) command lookPath ≠ Startup.exit 126 := by
  have key : ∀ (cmd : List (List Byte)) (lp : List Byte → Bool),
      (startup flags fileConfig cmd lp = Startup.exit 126
        ↔ flags.helpFlag = false
          ∧ (mergedSpec flags.fromFlag fileConfig.Message.From = []
            ∨ mergedSpec flags.toFlag fileConfig.Message.To = []
            ∨ mergedSpec flags.addressFlag fileConfig.Host.Address = []
            ∨ mergedSpec flags.userFlag fileConfig.Host.User = []
            ∨ mergedSpec flags.passwordFlag fileConfig.Host.Password = [])) := by
    intro cmd lp
    rw [startup_eq]
    by_cases hh : flags.helpFlag = true
    · rw [if_pos hh]
      constructor
      · intro h; exact absurd h (by decide)
      · rintro ⟨hf, _⟩; rw [hh] at hf; exact absurd hf (by decide)
    · have hf : flags.helpFlag = false := by simpa using hh
      rw [if_neg hh]
      constructor
      · intro h
        refine ⟨hf, ?_⟩
        by_contra hn
        rw [if_neg hn] at h
        exact checkCommand_ne_exit_126 _ _ _ h
      · rintro ⟨_, h⟩
        rw [if_pos h]
  refine ⟨key command lookPath, ?_, ?_, checkCommand_ne_exit_126 _ _ _⟩
  · intro command2 lookPath2
    rw [key command2 lookPath2, key command lookPath]
  · by_cases hh : flags.helpFlag = true
    · left
      refine ⟨hh, ?_⟩
      rw [startup_eq, if_pos hh]
    · have hf : flags.helpFlag = false := by simpa using hh
      right
      by_cases h : startup flags fileConfig command lookPath = Startup.exit 126
      · exact Or.inl ⟨hf, h⟩
      · right
        refine ⟨hf, ?_⟩
        have hn := fun hd => h ((key command lookPath).2 ⟨hf, hd⟩)
        rw [startup_eq, if_neg hh, if_neg hn]

/-! ## Theorems on the subject and the report text -/

/-- C12: for every configured subject and every termination state, the subject of the
message is the configured subject when that is non-empty, and "Process " followed by
the status line when it is empty ("Process succeeded" for a successful command); the
same text is the title of the document; the configured subject is the flag when that
is non-empty, else the value of the file. -/
theorem subject_eq_configured_or_default (signalString : Int → List Byte) (config : Config)
    (name : List Byte) (rest : List (List Byte)) (mailOutput : Bool) (ws : List Chunk)
    (ps : ProcessState) (systemTime userTime : List Byte) (sendErr : Option String) :
    (runAndReport signalString config name rest mailOutput ws ps systemTime userTime
        sendErr).message.Subject
      = (if config.Message.Subject = [] then
          str "Process " ++ (checkCommandStatus signalString ps).commandStatus
        else config.Message.Subject)
    ∧ (ps.Success = false
        ∨ str "Process " ++ (checkCommandStatus signalString ps).commandStatus
            = str "Process succeeded")
    ∧ (str "<!doctype html>\n<html lang=en>\n<head>\n<meta charset=utf-8>\n<title>"
          ++ (runAndReport signalString config name rest mailOutput ws ps systemTime userTime
              sendErr).message.Subject
          ++ str "</title>")
        <+: (runAndReport signalString config name rest mailOutput ws ps systemTime userTime
              sendErr).message.Content
    ∧ (∀ (flags : Flags) (fileConfig : Config),
        (setAndValidate flags fileConfig).1.Message.Subject
          = mergedSpec flags.subjectFlag fileConfig.Message.Subject) := by
  refine ⟨runAndReport_subject _ _ _ _ _ _ _ _ _ _, ?_, ?_, ?_⟩
  · by_cases h : ps.Success = true
    · right
      rw [commandStatus_of_Success signalString ps h]
      decide
    · left
      simpa using h
  · rw [runAndReport_content, composeEmail_eq, reportHead_eq]
    have h3 : str "</title>\n<style>\n.stderr\x7bcolor:#f00;\x7d\n</style>\n</head>\n<body>\n"
        = str "</title>" ++ str "\n<style>\n.stderr\x7bcolor:#f00;\x7d\n</style>\n</head>\n<body>\n" := by
      decide
    rw [h3]
    simp only [List.append_assoc]
    rw [List.prefix_append_right_inj, List.prefix_append_right_inj]
    exact List.prefix_append _ _
  · intro flags fileConfig
    rw [setAndValidate_eq]
    rfl

/-- C13: with capture enabled the output section of the report is the capture buffer
in which every line feed is replaced by `<br>` and a line feed and every other byte is
kept; a single stdout write of "hi\n" gives the block
`<span class="stdout">hi<br>\n</span>` in the body. -/
theorem outputSection_eq_replaceNewlines (subject name : List Byte) (args : List (List Byte))
    (commandStatus systemTime userTime : List Byte) (htmlIOContent : List Byte) :
    composeEmail subject name args commandStatus systemTime userTime true htmlIOContent
      = reportHead subject name args commandStatus systemTime userTime ++ outputIntro
        ++ replaceNewlines htmlIOContent
        ++ (if 1000000 ≤ (replaceNewlines htmlIOContent).length then truncationNotice else [])
        ++ reportClosing
    ∧ replaceNewlines [] = []
    ∧ (∀ a b : List Byte, replaceNewlines (a ++ b) = replaceNewlines a ++ replaceNewlines b)
    ∧ replaceNewlines [10] = str "<br>\n"
    ∧ (∀ c : Byte, c = 10 ∨ replaceNewlines [c] = [c])
    ∧ replaceNewlines (capture [(Stream.stdout, str "hi\n")])
        = str "<span class=\"stdout\">hi<br>\n</span>"
    ∧ composeEmail subject name args commandStatus systemTime userTime true
          (capture [(Stream.stdout, str "hi\n")])
        = reportHead subject name args commandStatus systemTime userTime ++ outputIntro
          ++ str "<span class=\"stdout\">hi<br>\n</span>" ++ reportClosing := by
  have hhi : replaceNewlines (capture [(Stream.stdout, str "hi\n")])
      = str "<span class=\"stdout\">hi<br>\n</span>" := by decide
  refine ⟨?_, rfl, replaceNewlines_append, by decide, ?_, hhi, ?_⟩
  · rw [composeEmail_eq]
    simp only [if_true, List.append_assoc]
  · intro c
    by_cases hc : c = 10
    · exact Or.inl hc
    · right
      simp [replaceNewlines, hc]
  · rw [composeEmail_eq, hhi]
    have hlt : ¬ 1000000 ≤ (str "<span class=\"stdout\">hi<br>\n</span>").length := by decide
    simp only [if_true, if_neg hlt, List.append_nil, List.append_assoc]

/-- C14: for every command, the heading of the report is "<h1>Process '" followed by
the escaped name, "' ", the status line and "</h1>", the command line is "Command: "
followed by the escaped arguments joined by single spaces, and neither escaped text
has a `<`, `>`, `"` or `'` in it. -/
theorem heading_and_command_escaped (signalString : Int → List Byte) (config : Config)
    (name : List Byte) (rest : List (List Byte)) (mailOutput : Bool) (ws : List Chunk)
    (ps : ProcessState) (systemTime userTime : List Byte) (sendErr : Option String) :
    (runAndReport signalString config name rest mailOutput ws ps systemTime userTime
        sendErr).message.Content
      = str "<!doctype html>\n<html lang=en>\n<head>\n<meta charset=utf-8>\n<title>"
        ++ (runAndReport signalString config name rest mailOutput ws ps systemTime userTime
              sendErr).message.Subject
        ++ str "</title>\n<style>\n.stderr\x7bcolor:#f00;\x7d\n</style>\n</head>\n<body>\n"
        ++ (str "<h1>Process \x27" ++ EscapeString name ++ str "\x27 "
            ++ (checkCommandStatus signalString ps).commandStatus ++ str "</h1>")
        ++ str "\n"
        ++ (str "Command: " ++ EscapeString (Join (name :: rest) (str " ")))
        ++ str "<br>\nExecution took: " ++ systemTime ++ str " (system) " ++ userTime
        ++ str " (user)<br>\n<br>\n"
        ++ writeOutputSection [] mailOutput
            (replaceNewlines (if mailOutput then capture ws else []))
        ++ reportClosing
    ∧ noMarkup (EscapeString name) = true
    ∧ noMarkup (EscapeString (Join (name :: rest) (str " "))) = true
    ∧ Join [str "ls", str "-l", str "a b"] (str " ") = str "ls -l a b" := by
  refine ⟨?_, EscapeString_noMarkup _, EscapeString_noMarkup _, by decide⟩
  rw [runAndReport_content]
  unfold composeEmail
  rw [reportHead_eq]
  unfold writeOutputSection
  cases mailOutput with
  | false => simp
  | true =>
    by_cases h : (replaceNewlines (capture ws)).length ≥ 1000000
    · simp [h]
    · simp [h]

/-! ## Theorems on the pointer to the process state, the exit code and the blocks -/

/-- C15 (the code at the failing input): when `cmd.Run()` could not start the command
the pointer `cmd.ProcessState` is nil and the status check panics instead of giving an
outcome; on every process state that exists it gives the status line and exit code of
exactly one of the four outcomes. -/
theorem checkCommandStatusOf_nil_panics (signalString : Int → List Byte) :
    checkCommandStatusOf signalString none = Except.error Panic.nilPointerDereference
    ∧ (∀ ps : ProcessState,
        checkCommandStatusOf signalString (some ps)
          = Except.ok { exitCode := exitCodeSpec (classifySpec signalString ps)
                        commandStatus := statusLineSpec (classifySpec signalString ps) }) := by
  refine ⟨rfl, ?_⟩
  intro ps
  have h := checkCommandStatus_eq_spec signalString ps
  unfold checkCommandStatusOf
  simp only
  rw [← h.1, ← h.2]

/-- C17: after the startup checks the final exit code is 0 if and only if the child
succeeded and the send succeeded; a wait status that is not a success and reports
an exit carries a non-zero exit status, and every failure gives the child's non-zero
exit status, 125 or 1. -/
theorem finalExitCode_eq_zero_iff (signalString : Int → List Byte) (config : Config)
    (name : List Byte) (rest : List (List Byte)) (mailOutput : Bool) (ws : List Chunk)
    (ps : ProcessState) (systemTime userTime : List Byte) (sendErr : Option String) :
    ((runAndReport signalString config name rest mailOutput ws ps systemTime userTime
        sendErr).exitCode = 0 ↔ ps.Success = true ∧ sendErr = none)
    ∧ (finalExitCode signalString ps sendErr = 0 ↔ ps.Success = true ∧ sendErr = none)
    ∧ (∀ w : WaitStatus,
        (ProcessState.wait w).Success = true ∨ w.Exited = false ∨ w.ExitStatus ≠ 0)
    ∧ (ps.Success = true ∨ finalExitCode signalString ps sendErr = 1
        ∨ finalExitCode signalString ps sendErr = 125
        ∨ ∃ w : WaitStatus, ps = ProcessState.wait w ∧ w.Exited = true
            ∧ w.ExitStatus ≠ 0 ∧ finalExitCode signalString ps sendErr = w.ExitStatus) := by
  have hex : ∀ w : WaitStatus,
      (ProcessState.wait w).Success = true ∨ w.Exited = false ∨ w.ExitStatus ≠ 0 := by
    intro w
    by_cases hs : (ProcessState.wait w).Success = true
    · exact Or.inl hs
    · by_cases he : w.Exited = true
      · right; right
        intro h0
        apply hs
        simp only [ProcessState.Success]
        rw [h0]; rfl
      · right; left; simpa using he
  have hnone : finalExitCode signalString ps none = 0 ↔ ps.Success = true := by
    cases ps with
    | wait w =>
      rw [finalExitCode_wait, Success_wait_iff]
      by_cases hm : w.bits % 128 = 0
      · simp only [hm, if_true, true_and]
        constructor
        · intro h; exact_mod_cast h
        · intro h; rw [h]; rfl
      · simp only [hm, if_false, false_and, iff_false]
        decide
    | foreign success =>
      rw [finalExitCode_foreign]
      cases success <;> simp [ProcessState.Success]
  have hiff : finalExitCode signalString ps sendErr = 0 ↔ ps.Success = true ∧ sendErr = none := by
    cases sendErr with
    | some e =>
      have h1 : finalExitCode signalString ps (some e) = 1 := rfl
      rw [h1]
      simp
    | none => simp [hnone]
  refine ⟨by rw [runAndReport_exitCode]; exact hiff, hiff, hex, ?_⟩
  by_cases hs : ps.Success = true
  · exact Or.inl hs
  · right
    cases sendErr with
    | some e => exact Or.inl rfl
    | none =>
      right
      cases ps with
      | foreign success =>
        left
        rw [finalExitCode_foreign]
        cases success
        · rfl
        · exact absurd rfl hs
      | wait w =>
        by_cases he : w.Exited = true
        · right
          have hm := (WaitStatus.Exited_iff w).1 he
          refine ⟨w, rfl, he, ?_, ?_⟩
          · rcases hex w with h | h | h
            · exact absurd h hs
            · rw [he] at h; exact absurd h (by decide)
            · exact h
          · rw [finalExitCode_wait, if_pos hm, WaitStatus.ExitStatus_of_Exited w he]
        · left
          have hm : ¬ w.bits % 128 = 0 := fun h => he ((WaitStatus.Exited_iff w).2 h)
          rw [finalExitCode_wait, if_neg hm]

/-- C18: for every sequence of writes through the stdout and stderr writers, the
capture buffer is the concatenation of the blocks start tag, escaped text, end tag of
the accepted chunks, the escaped text of each has no `<`, `>`, `"` or `'` in it, so
the buffer has exactly two `<` and two `>` per block, those of the tags; after the
line feeds are replaced, the blocks keep their tags, and the only further `<` and `>`
are those of the `<br>` markers, one pair per line feed. -/
theorem capture_is_blocks (ws : List Chunk) :
    capture ws
      = ((accepted ws).map
          (fun w => w.1.writer.startTag ++ EscapeString w.2 ++ w.1.writer.endTag)).flatten
    ∧ (accepted ws).all (fun w => noMarkup (EscapeString w.2)) = true
    ∧ (∀ s : Stream, (s.writer.startTag = str "<span class=\"stdout\">"
          ∨ s.writer.startTag = str "<span class=\"stderr\">")
        ∧ s.writer.endTag = str "</span>")
    ∧ (capture ws).count 60 = 2 * (accepted ws).length
    ∧ (capture ws).count 62 = 2 * (accepted ws).length
    ∧ replaceNewlines (capture ws)
      = ((accepted ws).map
          (fun w => w.1.writer.startTag ++ replaceNewlines (EscapeString w.2)
            ++ w.1.writer.endTag)).flatten
    ∧ (replaceNewlines (capture ws)).count 60
        = 2 * (accepted ws).length + (capture ws).count 10
    ∧ (replaceNewlines (capture ws)).count 62
        = 2 * (accepted ws).length + (capture ws).count 10 := by
  have hc : capture ws = renderedAll (accepted ws) := by
    have := captureFrom_eq_accepted ws []
    rw [List.nil_append] at this
    exact this
  have hcount := count_renderedAll (accepted ws)
  have hrep := count_replaceNewlines (capture ws)
  refine ⟨hc, ?_, ?_, ?_, ?_, ?_, ?_, ?_⟩
  · rw [List.all_eq_true]
    intro w _
    exact EscapeString_noMarkup w.2
  · intro s
    cases s
    · exact ⟨Or.inl rfl, rfl⟩
    · exact ⟨Or.inr rfl, rfl⟩
  · rw [hc]; exact hcount.1
  · rw [hc]; exact hcount.2
  · rw [hc]; exact replaceNewlines_renderedAll _
  · rw [hrep.1, hc, hcount.1]
  · rw [hrep.2, hc, hcount.2]

/-! ## Theorems on the two copy goroutines -/

/-- C16 (the code at the failing input): the child writes "out\n" to stdout and "e<"
to stderr.  When each `Write` runs on its own the buffer is one of the two sequential
captures; when the stderr goroutine runs between the first and the second append of
the stdout goroutine, both chunks are accepted and the stderr block ends up inside
the stdout block, so the stdout block is not a contiguous part of the buffer and the
buffer is neither sequential capture. -/
theorem overlapping_writes_interleave :
    (runSchedule [Stream.stdout, Stream.stdout, Stream.stdout, Stream.stdout,
        Stream.stderr, Stream.stderr, Stream.stderr, Stream.stderr] twoWrites).buffer
      = capture [(Stream.stdout, str "out\n"), (Stream.stderr, str "e<")]
    ∧ (runSchedule [Stream.stderr, Stream.stderr, Stream.stderr, Stream.stderr,
        Stream.stdout, Stream.stdout, Stream.stdout, Stream.stdout] twoWrites).buffer
      = capture [(Stream.stderr, str "e<"), (Stream.stdout, str "out\n")]
    ∧ runSchedule overlappingSchedule twoWrites
      = { buffer := str "<span class=\"stdout\"><span class=\"stderr\">e&lt;</span>out\n</span>"
          out := { pending := [], point := WritePoint.guard }
          err := { pending := [], point := WritePoint.guard } }
    ∧ ¬ (rendered (Stream.stdout, str "out\n")
          <:+: (runSchedule overlappingSchedule twoWrites).buffer)
    ∧ (runSchedule overlappingSchedule twoWrites).buffer
        ≠ capture [(Stream.stdout, str "out\n"), (Stream.stderr, str "e<")]
    ∧ (runSchedule overlappingSchedule twoWrites).buffer
        ≠ capture [(Stream.stderr, str "e<"), (Stream.stdout, str "out\n")] := by
  refine ⟨by decide, by decide, by decide, by decide, by decide, by decide⟩

end Cmdmailer
